import Mathlib

/-!
Shallow embedding of the multiplayer session layer of Rat Detective Online.

Server side (src/server/index.js): the player roster is a JavaScript object
mapping socket ids to player records; we embed it as an association list with
unique keys, preserving insertion order (JS string-keyed property order).
Numbers carried by the protocol (positions, quaternions) are embedded as ℚ;
hit points and damage as ℤ; kill/death counters as ℕ.  `Math.random()` results
are passed in as explicit ℚ parameters.  Handlers return the new state together
with the list of emitted events and the list of scheduled timers.

Client side: the per-remote-player reconciliation record and its handlers
(src/src/network/NetworkManager.ts) are embedded directly, together with the
entity's own per-frame update — including the 3-phase ragdoll death
presentation — from class RatEntity, the second concatenated file inside
src/src/enemies/TestRat.ts.  The THREE.js quaternion slerp is an external
library routine and is abstracted as a function parameter.
-/

namespace RatDetective

/-- Server-side player record, from the roster type in src/server/index.js
(lines 22–31) and the object created by the join handler (lines 47–58). -/
structure Player where
  x : ℚ
  y : ℚ
  z : ℚ
  qx : ℚ
  qy : ℚ
  qz : ℚ
  qw : ℚ
  name : String
  hp : ℤ
  kills : ℕ
  deaths : ℕ
  hatType : String
  hatColor : ℤ
  furColor : ℤ
  coatColor : ℤ
deriving DecidableEq, Repr

/-- The roster `players`: association list from socket id to record,
in JS property insertion order. -/
abbrev Players := List (String × Player)

/-- `players[id]` lookup. -/
def lookupP : Players → String → Option Player
  | [], _ => none
  | (k, v) :: rest, id => if k = id then some v else lookupP rest id

/-- In-place mutation of the record stored at an existing key
(JS: `players[id].field = …` through an object reference). -/
def updateP : Players → String → Player → Players
  | [], _, _ => []
  | (k, v) :: rest, id, p =>
      if k = id then (k, p) :: rest else (k, v) :: updateP rest id p

/-- `players[id] = obj`: replaces the record if the key exists, otherwise
appends it (JS property insertion order). -/
def insertP : Players → String → Player → Players
  | [], id, p => [(id, p)]
  | (k, v) :: rest, id, p =>
      if k = id then (k, p) :: rest else (k, v) :: insertP rest id p

/-- `delete players[id]`. -/
def deleteP : Players → String → Players
  | [], _ => []
  | (k, v) :: rest, id => if k = id then rest else (k, v) :: deleteP rest id

-- Constants from src/server/index.js lines 17–20.

def MAX_HP : ℤ := 3

def KILLS_TO_WIN : ℕ := 20

def RESPAWN_DELAY_MS : ℕ := 5000

def WIN_DISPLAY_MS : ℕ := 6000

/-- One scoreboard row (src/server/index.js lines 197–202). -/
structure ScoreEntry where
  id : String
  name : String
  kills : ℕ
  deaths : ℕ
deriving DecidableEq, Repr

/-- The total preorder realised by the comparator
`(a, b) => b.kills - a.kills || a.deaths - b.deaths`:
`a` sorts (weakly) before `b` iff the comparator is ≤ 0 at `(a, b)`. -/
def scoreOrder (a b : ScoreEntry) : Prop :=
  b.kills < a.kills ∨ (a.kills = b.kills ∧ a.deaths ≤ b.deaths)

instance : DecidableRel scoreOrder := fun a b => by
  unfold scoreOrder; infer_instance

instance : IsTotal ScoreEntry scoreOrder :=
  ⟨by intro a b; unfold scoreOrder; omega⟩

instance : IsTrans ScoreEntry scoreOrder :=
  ⟨by intro a b c; unfold scoreOrder; omega⟩

/-- `buildScoreboard` (src/server/index.js lines 196–203): map the roster to
scoreboard rows in insertion order, then sort with the comparator.
`Array.prototype.sort` with a consistent comparator is a stable sort, which
is what `List.insertionSort` computes for the comparator's total preorder. -/
def buildScoreboard (ps : Players) : List ScoreEntry :=
  List.insertionSort scoreOrder
    (ps.map fun e => ⟨e.1, e.2.name, e.2.kills, e.2.deaths⟩)

/-- Events emitted by the server handlers. -/
inductive SEv where
  | currentPlayers (roster : Players)
  | playerJoined (id : String) (p : Player)
  | playerMoved (id : String) (x y z qx qy qz qw mQx mQy mQz mQw : ℚ)
  | playerShot (shooterId : String) (ox oy oz tx ty tz : ℚ)
  | playerDamaged (id : String) (hp : ℤ) (attackerId : String)
  | playerDied (victimId killerId killerName victimName : String)
  | scoreboardUpdate (board : List ScoreEntry)
  | gameWon (winnerId winnerName : String) (kills : ℕ)
  | playerRespawn (id : String) (x y z : ℚ) (hp : ℤ)
  | gameReset
  | playerLeft (id : String)
deriving DecidableEq, Repr

/-- Timers scheduled by the hit handler via `setTimeout`. -/
inductive STimer where
  | respawn (victimId : String) (delayMs : ℕ)
  | roundReset (delayMs : ℕ)
deriving DecidableEq, Repr

/-- Whole server state: the roster plus the `gameInProgress` flag. -/
structure ServerState where
  players : Players
  gameInProgress : Bool
deriving DecidableEq, Repr

/-- Payload of a `join` message: every field may be absent
(`name ||`, `hatType ||`, and `?? `-defaulted colors). -/
structure JoinMsg where
  name : Option String
  hatType : Option String
  hatColor : Option ℤ
  furColor : Option ℤ
  coatColor : Option ℤ
deriving DecidableEq, Repr

/-- JS `v || d` on a string-or-absent value: the default is used when the
value is absent (undefined/null) or the empty string (falsy); any other
string, including whitespace-only, is kept. -/
def jsStringOr (v : Option String) (d : String) : String :=
  match v with
  | none => d
  | some s => if s = "" then d else s

/-- The join handler (src/server/index.js lines 39–71).  `r1`, `r2` are the
two `Math.random()` draws for the spawn point. -/
def handleJoin (r1 r2 : ℚ) (s : ServerState) (senderId : String)
    (m : JoinMsg) : ServerState × List SEv :=
  let p : Player :=
    { x := (r1 - 1/2) * 100
      y := 2
      z := (r2 - 1/2) * 100
      qx := 0, qy := 0, qz := 0, qw := 1
      name := jsStringOr m.name "Anonymous Rat"
      hp := MAX_HP
      kills := 0
      deaths := 0
      hatType := jsStringOr m.hatType "fedora"
      hatColor := m.hatColor.getD 0xDC4A3C
      furColor := m.furColor.getD 0xE8B84D
      coatColor := m.coatColor.getD 0xBE4545 }
  let ps := insertP s.players senderId p
  ({ s with players := ps },
   [SEv.currentPlayers ps, SEv.playerJoined senderId p,
    SEv.scoreboardUpdate (buildScoreboard ps)])

/-- Payload of an `updateMovement` message; the four mesh-quaternion fields
are defaulted by the handler when absent (`?? 0`, `?? 1`). -/
structure MoveMsg where
  x : ℚ
  y : ℚ
  z : ℚ
  qx : ℚ
  qy : ℚ
  qz : ℚ
  qw : ℚ
  meshQx : Option ℚ
  meshQy : Option ℚ
  meshQz : Option ℚ
  meshQw : Option ℚ
deriving DecidableEq, Repr

/-- The movement handler (src/server/index.js lines 74–92): no-op if the
sender has no session; otherwise overwrite the session's position and body
orientation and broadcast `playerMoved` to the other clients. -/
def handleUpdateMovement (s : ServerState) (senderId : String) (m : MoveMsg) :
    ServerState × List SEv :=
  match lookupP s.players senderId with
  | none => (s, [])
  | some p =>
      let p' := { p with
        x := m.x, y := m.y, z := m.z,
        qx := m.qx, qy := m.qy, qz := m.qz, qw := m.qw }
      ({ s with players := updateP s.players senderId p' },
       [SEv.playerMoved senderId m.x m.y m.z m.qx m.qy m.qz m.qw
          (m.meshQx.getD 0) (m.meshQy.getD 0) (m.meshQz.getD 0)
          (m.meshQw.getD 1)])

/-- The shoot handler (src/server/index.js lines 95–104): no-op if the sender
has no session; otherwise relay the visual shot to the other clients. -/
def handleShoot (s : ServerState) (senderId : String)
    (ox oy oz tx ty tz : ℚ) : ServerState × List SEv :=
  match lookupP s.players senderId with
  | none => (s, [])
  | some _ => (s, [SEv.playerShot senderId ox oy oz tx ty tz])

/-- The hit handler (src/server/index.js lines 107–182).  The source mutates
`victim` and `shooter` through object references that alias when
`victimId === socket.id`; the embedding re-reads the roster after each field
mutation, which realises exactly that aliasing. -/
def handleHit (s : ServerState) (senderId victimId : String) (damage : ℤ) :
    ServerState × List SEv × List STimer :=
  if s.gameInProgress = false then (s, [], [])
  else
    match lookupP s.players victimId, lookupP s.players senderId with
    | some victim, some _ =>
        if victim.hp ≤ 0 then (s, [], [])
        else
          let newHp := victim.hp - damage
          let ps1 := updateP s.players victimId { victim with hp := newHp }
          let evDamaged := SEv.playerDamaged victimId newHp senderId
          if newHp ≤ 0 then
            let shooter1 := (lookupP ps1 senderId).getD victim
            let ps2 := updateP ps1 senderId
              { shooter1 with kills := shooter1.kills + 1 }
            let victim2 := (lookupP ps2 victimId).getD victim
            let ps3 := updateP ps2 victimId
              { victim2 with deaths := victim2.deaths + 1 }
            let shooter3 := (lookupP ps3 senderId).getD victim
            let victim3 := (lookupP ps3 victimId).getD victim
            let evs := [evDamaged,
              SEv.playerDied victimId senderId shooter3.name victim3.name,
              SEv.scoreboardUpdate (buildScoreboard ps3)]
            if KILLS_TO_WIN ≤ shooter3.kills then
              ({ players := ps3, gameInProgress := false },
               evs ++ [SEv.gameWon senderId shooter3.name shooter3.kills],
               [STimer.roundReset WIN_DISPLAY_MS])
            else
              ({ players := ps3, gameInProgress := s.gameInProgress },
               evs, [STimer.respawn victimId RESPAWN_DELAY_MS])
          else
            ({ players := ps1, gameInProgress := s.gameInProgress },
             [evDamaged], [])
    | _, _ => (s, [], [])

/-- A client `hit` message. -/
structure HitEvent where
  shooterId : String
  victimId : String
  damage : ℤ
deriving DecidableEq, Repr

/-- Process a sequence of `hit` messages in arrival order. -/
def processHits : ServerState → List HitEvent → ServerState
  | s, [] => s
  | s, h :: rest => processHits (handleHit s h.shooterId h.victimId h.damage).1 rest

/-- The respawn timer callback (src/server/index.js lines 165–180).
`r1`, `r2` are the `Math.random()` draws for the new spawn.  The source
mutates the `victim` object captured by the closure; that object is the one
stored at `players[victimId]` whenever the id has not been replaced, and the
callback is only reached through a guard that the id is still present, so we
read the record through the roster. -/
def fireRespawn (r1 r2 : ℚ) (s : ServerState) (victimId : String) :
    ServerState × List SEv :=
  match lookupP s.players victimId with
  | none => (s, [])
  | some v =>
      let v' := { v with
        hp := MAX_HP
        x := (r1 - 1/2) * 100
        y := 2
        z := (r2 - 1/2) * 100 }
      ({ s with players := updateP s.players victimId v' },
       [SEv.playerRespawn victimId v'.x v'.y v'.z v'.hp])

/-- The disconnect handler (src/server/index.js lines 185–192). -/
def handleDisconnect (s : ServerState) (senderId : String) :
    ServerState × List SEv :=
  let ps := deleteP s.players senderId
  ({ s with players := ps },
   [SEv.playerLeft senderId, SEv.scoreboardUpdate (buildScoreboard ps)])

/-- The per-player body of the `resetGame` loop (src/server/index.js
lines 210–226): player `i` of the roster consumes the draw pair `rnd i`. -/
def resetLoop (rnd : ℕ → ℚ × ℚ) : ℕ → Players → Players × List SEv
  | _, [] => ([], [])
  | i, (id, p) :: rest =>
      let p' := { p with
        kills := 0
        deaths := 0
        hp := MAX_HP
        x := ((rnd i).1 - 1/2) * 100
        y := 2
        z := ((rnd i).2 - 1/2) * 100 }
      let r := resetLoop rnd (i + 1) rest
      ((id, p') :: r.1,
       SEv.playerRespawn id p'.x p'.y p'.z p'.hp :: r.2)

/-- `resetGame` (src/server/index.js lines 205–233). -/
def resetGame (rnd : ℕ → ℚ × ℚ) (s : ServerState) :
    ServerState × List SEv :=
  let r := resetLoop rnd 0 s.players
  ({ players := r.1, gameInProgress := true },
   r.2 ++ [SEv.gameReset, SEv.scoreboardUpdate (buildScoreboard r.1)])

/-! Client-side reconciliation (src/src/network/NetworkManager.ts), with the
entity's own per-frame update from class RatEntity — found as the second
concatenated file inside src/src/enemies/TestRat.ts (lines 231–642). -/

/-- A 3-vector of protocol numbers. -/
structure Vec3 where
  x : ℚ
  y : ℚ
  z : ℚ
deriving DecidableEq, Repr

/-- A quaternion of protocol numbers. -/
structure Quat where
  x : ℚ
  y : ℚ
  z : ℚ
  w : ℚ
deriving DecidableEq, Repr

/-- Phase of the 3-phase ragdoll death (RatEntity, `deathPhase`). -/
inductive DeathPhase where
  | launch
  | spin
  | settle
  | done
deriving DecidableEq, Repr

-- Ragdoll phase boundaries (RatEntity constants, in seconds):
-- DEATH_PHASE_LAUNCH = 0.8, DEATH_PHASE_SPIN = 1.8, DEATH_PHASE_SETTLE = 2.5.

def DEATH_PHASE_LAUNCH : ℚ := 4/5

def DEATH_PHASE_SPIN : ℚ := 9/5

def DEATH_PHASE_SETTLE : ℚ := 5/2

/-- The reconciliation state for one remote player: the `RemoteRat` record
(NetworkManager.ts lines 13–18) together with the fields of its entity that
the reconciliation and death-presentation code reads and writes
(`mesh.position`, `mesh.quaternion`, `body.position`, `body.quaternion`,
`dead`, `hp`, and RatEntity's ragdoll state `deathTimer`, `deathPhase`,
`deathPosition`, `deathTargetQuat`, `impactPlayed`, `ragdollSettled`). -/
structure RemoteRat where
  renderedPos : Vec3
  renderedQuat : Quat
  bodyPos : Vec3
  bodyQuat : Quat
  targetPos : Vec3
  targetMeshQuat : Quat
  lastUpdate : ℚ
  dead : Bool
  hp : ℤ
  deathTimer : ℚ
  deathPhase : DeathPhase
  deathPosition : Option Vec3
  deathTargetQuat : Option Quat
  impactPlayed : Bool
  ragdollSettled : Bool
deriving DecidableEq, Repr

/-- Payload of a `playerMoved` broadcast as received by the client. -/
structure MovedMsg where
  x : ℚ
  y : ℚ
  z : ℚ
  qx : ℚ
  qy : ℚ
  qz : ℚ
  qw : ℚ
  meshQx : ℚ
  meshQy : ℚ
  meshQz : ℚ
  meshQw : ℚ
deriving DecidableEq, Repr

/-- The client's `playerMoved` listener (NetworkManager.ts lines 116–128):
store the received transform as the interpolation target only; the rendered
transform is untouched.  `now` is `performance.now()`. -/
def onPlayerMoved (now : ℚ) (d : MovedMsg) (r : RemoteRat) : RemoteRat :=
  { r with
    targetPos := ⟨d.x, d.y, d.z⟩
    targetMeshQuat := ⟨d.meshQx, d.meshQy, d.meshQz, d.meshQw⟩
    lastUpdate := now }

/-- `THREE.Vector3.lerp`: `a + (b - a) * f` componentwise. -/
def lerpVec (a b : Vec3) (f : ℚ) : Vec3 :=
  ⟨a.x + (b.x - a.x) * f, a.y + (b.y - a.y) * f, a.z + (b.z - a.z) * f⟩

/-- `RatEntity.updateDeathRagdoll` (TestRat.ts lines 429–522), on the fields
of the model.  During launch and spin the mesh copies the physics body's
pose (the body was impulsed by `die()` and is integrated by the external
physics engine); during settle the y position is eased to the
laying-on-side height 0.3 and the orientation slerped toward the
laying-down quaternion with factor `eased * 0.3 + 0.05`; at the end of
settle the flat pose is snapped and the phase becomes done.  Body damping /
velocity writes, `body.sleep()`, glow fade, billboard placement and sounds
act on external objects and are outside the model.  `slerp` abstracts
`THREE.Quaternion.slerp`. -/
def updateDeathRagdoll (slerp : Quat → Quat → ℚ → Quat)
    (r : RemoteRat) : RemoteRat :=
  let t := r.deathTimer
  match r.deathPhase with
  | DeathPhase.launch =>
      let r2 := { r with renderedPos := r.bodyPos, renderedQuat := r.bodyQuat }
      if DEATH_PHASE_LAUNCH ≤ t then
        { r2 with deathPhase := DeathPhase.spin }
      else r2
  | DeathPhase.spin =>
      let r2 := { r with renderedPos := r.bodyPos, renderedQuat := r.bodyQuat }
      if DEATH_PHASE_SPIN ≤ t then
        { r2 with
          deathPhase := DeathPhase.settle
          deathPosition := some r2.renderedPos }
      else r2
  | DeathPhase.settle =>
      let settleProgress :=
        min ((t - DEATH_PHASE_SPIN) / (DEATH_PHASE_SETTLE - DEATH_PHASE_SPIN)) 1
      let eased := 1 - (1 - settleProgress)^3
      let r2 :=
        match r.deathPosition with
        | some dp =>
            { r with renderedPos :=
                { r.renderedPos with y := dp.y + (3/10 - dp.y) * eased } }
        | none => r
      let fq := eased * (3/10) + 1/20
      let r3 :=
        match r2.deathTargetQuat with
        | some q => { r2 with renderedQuat := slerp r2.renderedQuat q fq }
        | none => r2
      let r4 := { r3 with impactPlayed := true }
      if 1 ≤ settleProgress then
        let r5 := { r4 with
          deathPhase := DeathPhase.done
          ragdollSettled := true }
        let r6 :=
          match r5.deathTargetQuat with
          | some q => { r5 with renderedQuat := q }
          | none => r5
        { r6 with renderedPos := { r6.renderedPos with y := 3/10 } }
      else r4
  | DeathPhase.done => r

/-- `RatEntity.update` (TestRat.ts lines 396–421): while dead, advance the
death timer and run the ragdoll presentation — which mutates the rendered
mesh transform every frame; while alive, sync the mesh position from the
physics body.  The billboard/glow placement, elapsed time and hit-flash
colour logic act on presentation objects outside the model. -/
def entityUpdate (slerp : Quat → Quat → ℚ → Quat) (dt : ℚ)
    (r : RemoteRat) : RemoteRat :=
  if r.dead then
    updateDeathRagdoll slerp { r with deathTimer := r.deathTimer + dt }
  else
    { r with renderedPos := r.bodyPos }

/-- One remote player's step of `updateRemoteRats` (NetworkManager.ts lines
344–369): dead rats get only their entity update (no lerp toward the
network targets); alive rats are lerped/slerped toward the targets, the
kinematic body is synced to the mesh, and the entity update runs (its alive
branch copies the just-synced body position back, a no-op).  `slerp`
abstracts `THREE.Quaternion.slerp` (external library, irrational in
general): `slerp a b f` interpolates from `a` toward `b` by fraction `f`. -/
def updateRemoteRat (slerp : Quat → Quat → ℚ → Quat) (dt : ℚ)
    (r : RemoteRat) : RemoteRat :=
  if r.dead then entityUpdate slerp dt r
  else
    let f := min (dt * 12) 1
    let pos := lerpVec r.renderedPos r.targetPos f
    entityUpdate slerp dt
      { r with
        renderedPos := pos
        renderedQuat := slerp r.renderedQuat r.targetMeshQuat f
        bodyPos := pos }

/-- `respawnRemoteRat` (NetworkManager.ts lines 257–294): clear the dead
flag, restore health, snap the rendered and physics transforms to the
respawn position with identity orientation, and reset both interpolation
targets to match.  (The ragdoll state fields are not reset here; the next
`die()` reinitialises them.) -/
def respawnRemoteRat (r : RemoteRat) (x y z : ℚ) (hp : ℤ) : RemoteRat :=
  { r with
    dead := false
    hp := hp
    bodyPos := ⟨x, y, z⟩
    bodyQuat := ⟨0, 0, 0, 1⟩
    renderedPos := ⟨x, y, z⟩
    renderedQuat := ⟨0, 0, 0, 1⟩
    targetPos := ⟨x, y, z⟩
    targetMeshQuat := ⟨0, 0, 0, 1⟩ }

/-- Apply a batch of `playerMoved` messages for one remote player in arrival
order (each paired with its `performance.now()` reading). -/
def applyMoves : List (ℚ × MovedMsg) → RemoteRat → RemoteRat
  | [], r => r
  | (now, d) :: rest, r => applyMoves rest (onPlayerMoved now d r)

/-- A fixed concrete player record for witnesses and counterexamples. -/
def mkPlayer (nm : String) (hp : ℤ) (k d : ℕ) : Player :=
  { x := 0, y := 2, z := 0, qx := 0, qy := 0, qz := 0, qw := 1
    name := nm
    hp := hp
    kills := k
    deaths := d
    hatType := "fedora"
    hatColor := 0xDC4A3C
    furColor := 0xE8B84D
    coatColor := 0xBE4545 }

/-- A concrete two-player state: Alice at 1 hp, Bob at full health. -/
def demoState : ServerState :=
  ⟨[("A", mkPlayer "Alice" 1 0 0), ("B", mkPlayer "Bob" 3 0 0)], true⟩

/-- A concrete state where Bob is one kill short of the win threshold. -/
def demoWinState : ServerState :=
  ⟨[("A", mkPlayer "Alice" 1 0 0), ("B", mkPlayer "Bob" 3 19 0)], true⟩

/-- The roster of the spec's scoreboard example: kills 3,3,1 and
deaths 2,1,0 for players A,B,C. -/
def exampleRoster : Players :=
  [("A", mkPlayer "A" 3 3 2), ("B", mkPlayer "B" 3 3 1),
   ("C", mkPlayer "C" 3 1 0)]

/-- A concrete movement message. -/
def demoMove : MoveMsg :=
  ⟨7, 8, 9, 0, 0, 0, 1, some 1, some 0, some 0, some 1⟩

/-- A concrete dead remote-rat record with its ragdoll settled. -/
def demoDeadRat : RemoteRat :=
  { renderedPos := ⟨1, 2, 3⟩
    renderedQuat := ⟨0, 0, 0, 1⟩
    bodyPos := ⟨1, 2, 3⟩
    bodyQuat := ⟨0, 0, 0, 1⟩
    targetPos := ⟨4, 5, 6⟩
    targetMeshQuat := ⟨0, 0, 0, 1⟩
    lastUpdate := 0
    dead := true
    hp := 0
    deathTimer := 3
    deathPhase := DeathPhase.done
    deathPosition := some ⟨1, 2, 3⟩
    deathTargetQuat := some ⟨1, 0, 0, 0⟩
    impactPlayed := true
    ragdollSettled := true }

/-- A concrete dead remote-rat record in the launch phase of the ragdoll,
with the impulsed physics body away from the rendered mesh. -/
def demoRagdollRat : RemoteRat :=
  { renderedPos := ⟨1, 2, 3⟩
    renderedQuat := ⟨0, 0, 0, 1⟩
    bodyPos := ⟨10, 20, 30⟩
    bodyQuat := ⟨1, 0, 0, 0⟩
    targetPos := ⟨4, 5, 6⟩
    targetMeshQuat := ⟨0, 0, 0, 1⟩
    lastUpdate := 0
    dead := true
    hp := 0
    deathTimer := 0
    deathPhase := DeathPhase.launch
    deathPosition := none
    deathTargetQuat := none
    impactPlayed := false
    ragdollSettled := false }

/-- A concrete `playerMoved` payload. -/
def demoMoved : MovedMsg := ⟨10, 11, 12, 0, 0, 0, 1, 0, 1, 0, 0⟩

/-- What one pass of the `resetGame` loop does to one roster entry: combat
fields reset, identity and appearance untouched. -/
def resetKeeps (a b : String × Player) : Prop :=
  a.1 = b.1 ∧ b.2.kills = 0 ∧ b.2.deaths = 0 ∧ b.2.hp = MAX_HP ∧
  b.2.name = a.2.name ∧ b.2.hatType = a.2.hatType ∧
  b.2.hatColor = a.2.hatColor ∧ b.2.furColor = a.2.furColor ∧
  b.2.coatColor = a.2.coatColor ∧ b.2.y = 2

/-! Basic roster lemmas. -/

theorem lookupP_updateP_self (ps : Players) (k : String) (p : Player)
    (h : (lookupP ps k).isSome) : lookupP (updateP ps k p) k = some p := by
  induction ps with
  | nil => simp [lookupP] at h
  | cons e rest ih =>
      by_cases hk : e.1 = k
      · simp [lookupP, updateP, hk]
      · simp [lookupP, updateP, hk] at h ⊢
        exact ih h

theorem lookupP_updateP_ne (ps : Players) (k k' : String) (p : Player)
    (h : k ≠ k') : lookupP (updateP ps k p) k' = lookupP ps k' := by
  induction ps with
  | nil => simp [updateP]
  | cons e rest ih =>
      by_cases hk : e.1 = k
      · simp [lookupP, updateP, hk, h]
      · by_cases hk' : e.1 = k'
        · have hne : k' ≠ k := fun hc => h hc.symm
          simp [lookupP, updateP, hk, hk', hne]
        · simp [lookupP, updateP, hk, hk', ih]

theorem lookupP_insertP_self (ps : Players) (k : String) (p : Player) :
    lookupP (insertP ps k p) k = some p := by
  induction ps with
  | nil => simp [insertP, lookupP]
  | cons e rest ih =>
      by_cases hk : e.1 = k
      · simp [insertP, lookupP, hk]
      · simp [insertP, lookupP, hk, ih]

theorem updateP_updateP_self (ps : Players) (k : String) (a b : Player) :
    updateP (updateP ps k a) k b = updateP ps k b := by
  induction ps with
  | nil => simp [updateP]
  | cons e rest ih =>
      by_cases hk : e.1 = k
      · simp [updateP, hk]
      · simp [updateP, hk, ih]

theorem updateP_comm (ps : Players) (k k' : String) (a b : Player)
    (h : k ≠ k') :
    updateP (updateP ps k a) k' b = updateP (updateP ps k' b) k a := by
  induction ps with
  | nil => simp [updateP]
  | cons e rest ih =>
      have h' : k' ≠ k := fun hc => h hc.symm
      by_cases hk : e.1 = k
      · have : e.1 ≠ k' := by rw [hk]; exact h
        simp [updateP, hk, this, h, h']
      · by_cases hk' : e.1 = k'
        · simp [updateP, hk, hk', h, h']
        · simp [updateP, hk, hk', ih]

/-! Guard lemmas for the hit handler. -/

theorem handleHit_inactive (s : ServerState) (sid vid : String) (dmg : ℤ)
    (h : s.gameInProgress = false) :
    handleHit s sid vid dmg = (s, [], []) := by
  simp [handleHit, h]

theorem handleHit_missing_victim (s : ServerState) (sid vid : String)
    (dmg : ℤ) (h : lookupP s.players vid = none) :
    handleHit s sid vid dmg = (s, [], []) := by
  by_cases hg : s.gameInProgress = false <;> simp [handleHit, hg, h]

theorem handleHit_missing_shooter (s : ServerState) (sid vid : String)
    (dmg : ℤ) (h : lookupP s.players sid = none) :
    handleHit s sid vid dmg = (s, [], []) := by
  by_cases hg : s.gameInProgress = false <;>
    cases hv : lookupP s.players vid <;> simp [handleHit, hg, h, hv]

theorem handleHit_dead_victim (s : ServerState) (sid vid : String)
    (dmg : ℤ) (v : Player) (hv : lookupP s.players vid = some v)
    (hdead : v.hp ≤ 0) :
    handleHit s sid vid dmg = (s, [], []) := by
  by_cases hg : s.gameInProgress = false <;>
    cases hs : lookupP s.players sid <;> simp [handleHit, hg, hv, hs, hdead]

/-- Full description of a processed non-lethal hit. -/
theorem handleHit_nonlethal (s : ServerState) (sid vid : String) (dmg : ℤ)
    (v sh : Player)
    (hgb : s.gameInProgress = true)
    (hv : lookupP s.players vid = some v)
    (hs : lookupP s.players sid = some sh)
    (halive : 0 < v.hp) (hk : 0 < v.hp - dmg) :
    handleHit s sid vid dmg =
      (⟨updateP s.players vid { v with hp := v.hp - dmg }, true⟩,
       [SEv.playerDamaged vid (v.hp - dmg) sid], []) := by
  simp [handleHit, hgb, hv, hs, not_le.mpr halive, not_le.mpr hk]

/-- Full description of a processed lethal self-hit (`victimId` equals the
sender's id, so `victim` and `shooter` alias the same record). -/
theorem handleHit_lethal_self (s : ServerState) (sid : String) (dmg : ℤ)
    (v : Player)
    (hgb : s.gameInProgress = true)
    (hv : lookupP s.players sid = some v)
    (halive : 0 < v.hp) (hk : v.hp - dmg ≤ 0) :
    handleHit s sid sid dmg =
      (let v3 := { v with hp := v.hp - dmg, kills := v.kills + 1,
                          deaths := v.deaths + 1 }
       let ps3 := updateP s.players sid v3
       let evs := [SEv.playerDamaged sid (v.hp - dmg) sid,
                   SEv.playerDied sid sid v.name v.name,
                   SEv.scoreboardUpdate (buildScoreboard ps3)]
       if KILLS_TO_WIN ≤ v.kills + 1 then
         (⟨ps3, false⟩, evs ++ [SEv.gameWon sid v.name (v.kills + 1)],
          [STimer.roundReset WIN_DISPLAY_MS])
       else
         (⟨ps3, true⟩, evs, [STimer.respawn sid RESPAWN_DELAY_MS])) := by
  have hvs : (lookupP s.players sid).isSome := by rw [hv]; rfl
  have h1 : lookupP (updateP s.players sid { v with hp := v.hp - dmg }) sid
      = some { v with hp := v.hp - dmg } := lookupP_updateP_self _ _ _ hvs
  have h1s : (lookupP (updateP s.players sid { v with hp := v.hp - dmg }) sid).isSome := by
    rw [h1]; rfl
  have h2 : lookupP (updateP (updateP s.players sid { v with hp := v.hp - dmg }) sid
        { v with hp := v.hp - dmg, kills := v.kills + 1 }) sid
      = some { v with hp := v.hp - dmg, kills := v.kills + 1 } :=
    lookupP_updateP_self _ _ _ h1s
  have h2c : lookupP (updateP s.players sid
        { v with hp := v.hp - dmg, kills := v.kills + 1 }) sid
      = some { v with hp := v.hp - dmg, kills := v.kills + 1 } :=
    lookupP_updateP_self _ _ _ hvs
  have h3c : lookupP (updateP s.players sid
        { v with hp := v.hp - dmg, kills := v.kills + 1, deaths := v.deaths + 1 }) sid
      = some { v with hp := v.hp - dmg, kills := v.kills + 1, deaths := v.deaths + 1 } :=
    lookupP_updateP_self _ _ _ hvs
  simp [handleHit, hgb, hv, not_le.mpr halive, hk, h1, h2, h2c, h3c,
    updateP_updateP_self]

/-- Full description of a processed lethal hit with distinct shooter and
victim. -/
theorem handleHit_lethal_ne (s : ServerState) (sid vid : String) (dmg : ℤ)
    (v sh : Player)
    (hgb : s.gameInProgress = true)
    (hv : lookupP s.players vid = some v)
    (hs : lookupP s.players sid = some sh)
    (hne : sid ≠ vid)
    (halive : 0 < v.hp) (hk : v.hp - dmg ≤ 0) :
    handleHit s sid vid dmg =
      (let ps3 := updateP (updateP s.players sid
                    { sh with kills := sh.kills + 1 }) vid
                  { v with hp := v.hp - dmg, deaths := v.deaths + 1 }
       let evs := [SEv.playerDamaged vid (v.hp - dmg) sid,
                   SEv.playerDied vid sid sh.name v.name,
                   SEv.scoreboardUpdate (buildScoreboard ps3)]
       if KILLS_TO_WIN ≤ sh.kills + 1 then
         (⟨ps3, false⟩, evs ++ [SEv.gameWon sid sh.name (sh.kills + 1)],
          [STimer.roundReset WIN_DISPLAY_MS])
       else
         (⟨ps3, true⟩, evs, [STimer.respawn vid RESPAWN_DELAY_MS])) := by
  have hnv : vid ≠ sid := fun hc => hne hc.symm
  have hvs : (lookupP s.players vid).isSome := by rw [hv]; rfl
  have hss : (lookupP s.players sid).isSome := by rw [hs]; rfl
  have h1 : lookupP (updateP s.players vid { v with hp := v.hp - dmg }) vid
      = some { v with hp := v.hp - dmg } := lookupP_updateP_self _ _ _ hvs
  have h1sh : lookupP (updateP s.players vid { v with hp := v.hp - dmg }) sid
      = some sh := by
    rw [lookupP_updateP_ne _ _ _ _ hnv]; exact hs
  have h2 : lookupP (updateP (updateP s.players vid { v with hp := v.hp - dmg }) sid
        { sh with kills := sh.kills + 1 }) vid
      = some { v with hp := v.hp - dmg } := by
    rw [lookupP_updateP_ne _ _ _ _ hne]; exact h1
  have h2post : lookupP (updateP (updateP s.players sid
        { sh with kills := sh.kills + 1 }) vid { v with hp := v.hp - dmg }) vid
      = some { v with hp := v.hp - dmg } := by
    have : (lookupP (updateP s.players sid { sh with kills := sh.kills + 1 }) vid).isSome := by
      rw [lookupP_updateP_ne _ _ _ _ hne, hv]; rfl
    exact lookupP_updateP_self _ _ _ this
  have hcomm : updateP (updateP s.players vid { v with hp := v.hp - dmg }) sid
        { sh with kills := sh.kills + 1 }
      = updateP (updateP s.players sid { sh with kills := sh.kills + 1 }) vid
        { v with hp := v.hp - dmg } :=
    updateP_comm _ _ _ _ _ hnv
  have hs1s : (lookupP (updateP s.players vid { v with hp := v.hp - dmg }) sid).isSome := by
    rw [h1sh]; rfl
  have hsid_pre : lookupP (updateP (updateP (updateP s.players vid
        { v with hp := v.hp - dmg }) sid { sh with kills := sh.kills + 1 }) vid
        { v with hp := v.hp - dmg, deaths := v.deaths + 1 }) sid
      = some { sh with kills := sh.kills + 1 } := by
    rw [lookupP_updateP_ne _ _ _ _ hnv]
    exact lookupP_updateP_self _ _ _ hs1s
  have hsid : lookupP (updateP (updateP s.players sid
        { sh with kills := sh.kills + 1 }) vid
        { v with hp := v.hp - dmg, deaths := v.deaths + 1 }) sid
      = some { sh with kills := sh.kills + 1 } := by
    rw [lookupP_updateP_ne _ _ _ _ hnv]
    exact lookupP_updateP_self _ _ _ hss
  have h2s : (lookupP (updateP (updateP s.players vid { v with hp := v.hp - dmg }) sid
        { sh with kills := sh.kills + 1 }) vid).isSome := by rw [h2]; rfl
  have hvid_pre : lookupP (updateP (updateP (updateP s.players vid
        { v with hp := v.hp - dmg }) sid { sh with kills := sh.kills + 1 }) vid
        { v with hp := v.hp - dmg, deaths := v.deaths + 1 }) vid
      = some { v with hp := v.hp - dmg, deaths := v.deaths + 1 } :=
    lookupP_updateP_self _ _ _ h2s
  have hvid : lookupP (updateP (updateP s.players sid
        { sh with kills := sh.kills + 1 }) vid
        { v with hp := v.hp - dmg, deaths := v.deaths + 1 }) vid
      = some { v with hp := v.hp - dmg, deaths := v.deaths + 1 } := by
    have : (lookupP (updateP s.players sid { sh with kills := sh.kills + 1 }) vid).isSome := by
      rw [lookupP_updateP_ne _ _ _ _ hne, hv]; rfl
    exact lookupP_updateP_self _ _ _ this
  simp [handleHit, hgb, hv, hs, not_le.mpr halive, hk, h1, h1sh, h2, h2post,
    hcomm, updateP_updateP_self, hsid_pre, hsid, hvid_pre, hvid]

/-- How one `hit` message affects the victim's record: either a guard drops
the message and the whole state is unchanged, or the victim was alive, loses
exactly `dmg` hit points, and gains exactly one death if and only if the hit
was lethal. -/
theorem handleHit_step_victim (s : ServerState) (sid vid : String)
    (dmg : ℤ) (v : Player) (hv : lookupP s.players vid = some v) :
    ∃ v', lookupP (handleHit s sid vid dmg).1.players vid = some v' ∧
      (((handleHit s sid vid dmg).1 = s ∧ v' = v) ∨
       (0 < v.hp ∧ v'.hp = v.hp - dmg ∧
        (v.hp - dmg ≤ 0 → v'.deaths = v.deaths + 1) ∧
        (0 < v.hp - dmg → v'.deaths = v.deaths))) := by
  by_cases hg : s.gameInProgress = false
  · exact ⟨v, by rw [handleHit_inactive s sid vid dmg hg]; exact hv,
      Or.inl ⟨by rw [handleHit_inactive s sid vid dmg hg], rfl⟩⟩
  · have hgb : s.gameInProgress = true := by
      revert hg; cases s.gameInProgress <;> simp
    cases hs : lookupP s.players sid with
    | none =>
        exact ⟨v, by rw [handleHit_missing_shooter s sid vid dmg hs]; exact hv,
          Or.inl ⟨by rw [handleHit_missing_shooter s sid vid dmg hs], rfl⟩⟩
    | some sh =>
        by_cases hdead : v.hp ≤ 0
        · exact ⟨v, by rw [handleHit_dead_victim s sid vid dmg v hv hdead]; exact hv,
            Or.inl ⟨by rw [handleHit_dead_victim s sid vid dmg v hv hdead], rfl⟩⟩
        · have halive : 0 < v.hp := lt_of_not_le hdead
          have hvs : (lookupP s.players vid).isSome := by rw [hv]; rfl
          by_cases hk : v.hp - dmg ≤ 0
          · by_cases hsv : sid = vid
            · subst hsv
              have heq : sh = v := by rw [hv] at hs; exact (Option.some.inj hs).symm
              subst heq
              refine ⟨{ sh with
                          hp := sh.hp - dmg
                          kills := sh.kills + 1
                          deaths := sh.deaths + 1 }, ?_, ?_⟩
              · rw [handleHit_lethal_self s sid dmg sh hgb hv halive hk]
                by_cases hw : KILLS_TO_WIN ≤ sh.kills + 1 <;>
                  simp [hw, lookupP_updateP_self _ _ _ hvs]
              · exact Or.inr ⟨halive, rfl, fun _ => rfl,
                  fun hc => absurd hk (not_le.mpr hc)⟩
            · refine ⟨{ v with hp := v.hp - dmg, deaths := v.deaths + 1 }, ?_, ?_⟩
              · rw [handleHit_lethal_ne s sid vid dmg v sh hgb hv hs hsv halive hk]
                have hvs2 : (lookupP (updateP s.players sid
                    { sh with kills := sh.kills + 1 }) vid).isSome := by
                  rw [lookupP_updateP_ne _ _ _ _ hsv, hv]; rfl
                by_cases hw : KILLS_TO_WIN ≤ sh.kills + 1 <;>
                  simp [hw, lookupP_updateP_self _ _ _ hvs2]
              · exact Or.inr ⟨halive, rfl, fun _ => rfl,
                  fun hc => absurd hk (not_le.mpr hc)⟩
          · refine ⟨{ v with hp := v.hp - dmg }, ?_, ?_⟩
            · rw [handleHit_nonlethal s sid vid dmg v sh hgb hv hs halive
                (lt_of_not_le hk)]
              exact lookupP_updateP_self _ _ _ hvs
            · exact Or.inr ⟨halive, rfl, fun hc => absurd hc hk, fun _ => rfl⟩

/-- A `hit` sequence aimed at a victim whose hit points are already ≤ 0
leaves the whole server state unchanged. -/
theorem processHits_dead_noop : ∀ (hits : List HitEvent) (s : ServerState)
    (vid : String) (v : Player),
    (∀ h ∈ hits, h.victimId = vid) →
    lookupP s.players vid = some v → v.hp ≤ 0 →
    processHits s hits = s
  | [], _, _, _, _, _, _ => rfl
  | h :: rest, s, vid, v, hall, hv, hdead => by
      have hvid := hall h (List.mem_cons_self h rest)
      show processHits (handleHit s h.shooterId h.victimId h.damage).1 rest = s
      rw [hvid, handleHit_dead_victim s h.shooterId vid h.damage v hv hdead]
      exact processHits_dead_noop rest s vid v
        (fun g hg => hall g (List.mem_cons_of_mem h hg)) hv hdead

/-- Workhorse for C2, by recursion over the hit sequence: through any
sequence of `hit` messages aimed at one victim, the victim's death count
never decreases and increases by at most one; if the victim is already dead
the whole sequence is a no-op; and if the victim starts alive, the death
count increased by exactly one precisely when the victim ended up dead. -/
theorem processHits_deaths_once : ∀ (hits : List HitEvent) (s : ServerState)
    (vid : String) (v : Player),
    (∀ h ∈ hits, h.victimId = vid) →
    lookupP s.players vid = some v →
    ∃ v', lookupP (processHits s hits).players vid = some v' ∧
      v.deaths ≤ v'.deaths ∧ v'.deaths ≤ v.deaths + 1 ∧
      (v.hp ≤ 0 → processHits s hits = s) ∧
      (0 < v.hp →
        (0 < v'.hp ∧ v'.deaths = v.deaths) ∨
        (v'.hp ≤ 0 ∧ v'.deaths = v.deaths + 1))
  | [], s, vid, v, _, hv =>
      ⟨v, hv, le_refl _, Nat.le_succ _, fun _ => rfl,
        fun hal => Or.inl ⟨hal, rfl⟩⟩
  | h :: rest, s, vid, v, hall, hv => by
      have hall' : ∀ g ∈ rest, g.victimId = vid :=
        fun g hg => hall g (List.mem_cons_of_mem h hg)
      have hvid := hall h (List.mem_cons_self h rest)
      by_cases hdead : v.hp ≤ 0
      · have hfroz := processHits_dead_noop (h :: rest) s vid v hall hv hdead
        exact ⟨v, by rw [hfroz]; exact hv, le_refl _, Nat.le_succ _,
          fun _ => hfroz, fun hal => absurd hdead (not_le.mpr hal)⟩
      · have halive : 0 < v.hp := lt_of_not_le hdead
        show ∃ v', lookupP (processHits
            (handleHit s h.shooterId h.victimId h.damage).1 rest).players vid
            = some v' ∧ _
        rw [hvid]
        obtain ⟨v1, hv1, hcase⟩ :=
          handleHit_step_victim s h.shooterId vid h.damage v hv
        rcases hcase with ⟨hseq, hveq⟩ | ⟨_, hhp, hld, hnld⟩
        · rw [hseq] at hv1 ⊢
          rw [hveq] at hv1
          obtain ⟨v', hv', hle1, hle2, _, halt⟩ :=
            processHits_deaths_once rest s vid v hall' hv
          exact ⟨v', hv', hle1, hle2, fun hc => absurd hc hdead, halt⟩
        · by_cases hlethal : v.hp - h.damage ≤ 0
          · have hd1 : v1.deaths = v.deaths + 1 := hld hlethal
            have hdead1 : v1.hp ≤ 0 := by rw [hhp]; exact hlethal
            have hfroz := processHits_dead_noop rest
              (handleHit s h.shooterId vid h.damage).1 vid v1 hall' hv1 hdead1
            refine ⟨v1, by rw [hfroz]; exact hv1, ?_, ?_,
              fun hc => absurd hc hdead, fun _ => Or.inr ⟨hdead1, hd1⟩⟩
            · omega
            · omega
          · have h0 : 0 < v1.hp := by
              rw [hhp]; exact lt_of_not_le hlethal
            have hdeq : v1.deaths = v.deaths := hnld (lt_of_not_le hlethal)
            obtain ⟨v', hv', hle1, hle2, _, halt⟩ :=
              processHits_deaths_once rest
                (handleHit s h.shooterId vid h.damage).1 vid v1 hall' hv1
            refine ⟨v', hv', by omega, by omega,
              fun hc => absurd hc hdead, fun _ => ?_⟩
            rcases halt h0 with ⟨hpos, hde⟩ | ⟨hneg, hde⟩
            · exact Or.inl ⟨hpos, by omega⟩
            · exact Or.inr ⟨hneg, by omega⟩

/-! Claim theorems. -/

/-- C1, counterexample: with victim Alice at 1 hp, a hit for damage 3 (the
head-shot damage of CheeseGun.update) runs death processing to completion —
her death count becomes 1 — yet the hit-point value stored in her session
record and carried by the `playerDamaged` broadcast is −2, which is
negative: nothing clamps it to 0. -/
theorem hit_hp_negative_after_death_cex :
    (lookupP (handleHit demoState "B" "A" 3).1.players "A").map Player.hp
      = some (-2) ∧
    SEv.playerDamaged "A" (-2) "B" ∈ (handleHit demoState "B" "A" 3).2.1 ∧
    (lookupP (handleHit demoState "B" "A" 3).1.players "A").map Player.deaths
      = some 1 := by
  decide

/-- C1, amended: for every processed hit (active round, both parties known,
victim alive), the hit-point value stored in the victim's session record
when the handler finishes, and the value broadcast in `playerDamaged`,
equal the victim's previous hit points minus the damage; on a lethal hit
this value can be negative — it is not clamped. -/
theorem hit_stores_unclamped_hp (s : ServerState) (sid vid : String)
    (dmg : ℤ) (v sh : Player)
    (hgb : s.gameInProgress = true)
    (hv : lookupP s.players vid = some v)
    (hs : lookupP s.players sid = some sh)
    (halive : 0 < v.hp) :
    ∃ v', lookupP (handleHit s sid vid dmg).1.players vid = some v' ∧
      v'.hp = v.hp - dmg ∧
      SEv.playerDamaged vid (v.hp - dmg) sid ∈ (handleHit s sid vid dmg).2.1 := by
  have hvs : (lookupP s.players vid).isSome := by rw [hv]; rfl
  by_cases hk : v.hp - dmg ≤ 0
  · by_cases hsv : sid = vid
    · subst hsv
      have heq : sh = v := by rw [hv] at hs; exact (Option.some.inj hs).symm
      subst heq
      rw [handleHit_lethal_self s sid dmg sh hgb hv halive hk]
      by_cases hw : KILLS_TO_WIN ≤ sh.kills + 1 <;>
      · refine ⟨{ sh with
            hp := sh.hp - dmg
            kills := sh.kills + 1
            deaths := sh.deaths + 1 }, ?_, rfl, ?_⟩
        · simp [hw, lookupP_updateP_self _ _ _ hvs]
        · simp [hw]
    · rw [handleHit_lethal_ne s sid vid dmg v sh hgb hv hs hsv halive hk]
      have hvs2 : (lookupP (updateP s.players sid
          { sh with kills := sh.kills + 1 }) vid).isSome := by
        rw [lookupP_updateP_ne _ _ _ _ hsv, hv]; rfl
      by_cases hw : KILLS_TO_WIN ≤ sh.kills + 1 <;>
      · refine ⟨{ v with
            hp := v.hp - dmg
            deaths := v.deaths + 1 }, ?_, rfl, ?_⟩
        · simp [hw, lookupP_updateP_self _ _ _ hvs2]
        · simp [hw]
  · rw [handleHit_nonlethal s sid vid dmg v sh hgb hv hs halive (lt_of_not_le hk)]
    exact ⟨{ v with hp := v.hp - dmg },
      lookupP_updateP_self _ _ _ hvs, rfl, by simp⟩

/-- C1, amended, witness at the concrete two-player state. -/
theorem hit_stores_unclamped_hp_witness :
    demoState.gameInProgress = true ∧
    lookupP demoState.players "A" = some (mkPlayer "Alice" 1 0 0) ∧
    lookupP demoState.players "B" = some (mkPlayer "Bob" 3 0 0) ∧
    0 < (mkPlayer "Alice" 1 0 0).hp ∧
    (∃ v', lookupP (handleHit demoState "B" "A" 3).1.players "A" = some v' ∧
      v'.hp = (mkPlayer "Alice" 1 0 0).hp - 3 ∧
      SEv.playerDamaged "A" ((mkPlayer "Alice" 1 0 0).hp - 3) "B"
        ∈ (handleHit demoState "B" "A" 3).2.1) :=
  ⟨rfl, by decide, by decide, by decide,
   hit_stores_unclamped_hp demoState "B" "A" 3 (mkPlayer "Alice" 1 0 0)
     (mkPlayer "Bob" 3 0 0) rfl (by decide) (by decide) (by decide)⟩

/-- C4: the scoreboard is a permutation of the current roster's rows, sorted
by kills descending with ties broken by fewer deaths first (the
`scoreOrder` preorder), and on the spec's example roster — kills 3,3,1 and
deaths 2,1,0 for A,B,C — the resulting order is B,A,C. -/
theorem scoreboard_sorted_deterministic (ps : Players) :
    List.Perm (buildScoreboard ps)
      (ps.map fun e => (⟨e.1, e.2.name, e.2.kills, e.2.deaths⟩ : ScoreEntry)) ∧
    List.Sorted scoreOrder (buildScoreboard ps) ∧
    (buildScoreboard exampleRoster).map ScoreEntry.id = ["B", "A", "C"] :=
  ⟨List.perm_insertionSort scoreOrder _,
   List.sorted_insertionSort scoreOrder _,
   by decide⟩

/-- C2: over any sequence of `hit` events against a single victim, the
victim's recorded death count never decreases, increases by at most one, and
— starting from an alive victim — increases by exactly one precisely when
the victim ends up dead; a sequence aimed at a victim already at hp ≤ 0
leaves the entire server state unchanged (each such hit is dropped), so no
double-death can occur before the respawn timer fires. -/
theorem deaths_exactly_once_per_life (hits : List HitEvent) (s : ServerState)
    (vid : String) (v : Player)
    (hall : ∀ h ∈ hits, h.victimId = vid)
    (hv : lookupP s.players vid = some v) :
    ∃ v', lookupP (processHits s hits).players vid = some v' ∧
      v.deaths ≤ v'.deaths ∧ v'.deaths ≤ v.deaths + 1 ∧
      (v.hp ≤ 0 → processHits s hits = s) ∧
      (0 < v.hp →
        (0 < v'.hp ∧ v'.deaths = v.deaths) ∨
        (v'.hp ≤ 0 ∧ v'.deaths = v.deaths + 1)) :=
  processHits_deaths_once hits s vid v hall hv

/-- C2, witness: two lethal hits on Alice (1 hp) arriving back to back leave
her death count at exactly 1. -/
theorem deaths_exactly_once_per_life_witness :
    (∀ h ∈ [(⟨"B", "A", 3⟩ : HitEvent), ⟨"B", "A", 3⟩], h.victimId = "A") ∧
    lookupP demoState.players "A" = some (mkPlayer "Alice" 1 0 0) ∧
    (∃ v', lookupP (processHits demoState
        [(⟨"B", "A", 3⟩ : HitEvent), ⟨"B", "A", 3⟩]).players "A" = some v' ∧
      (mkPlayer "Alice" 1 0 0).deaths ≤ v'.deaths ∧
      v'.deaths ≤ (mkPlayer "Alice" 1 0 0).deaths + 1 ∧
      ((mkPlayer "Alice" 1 0 0).hp ≤ 0 → processHits demoState
        [(⟨"B", "A", 3⟩ : HitEvent), ⟨"B", "A", 3⟩] = demoState) ∧
      (0 < (mkPlayer "Alice" 1 0 0).hp →
        (0 < v'.hp ∧ v'.deaths = (mkPlayer "Alice" 1 0 0).deaths) ∨
        (v'.hp ≤ 0 ∧ v'.deaths = (mkPlayer "Alice" 1 0 0).deaths + 1))) :=
  ⟨by decide, by decide,
   deaths_exactly_once_per_life [⟨"B", "A", 3⟩, ⟨"B", "A", 3⟩] demoState "A"
     (mkPlayer "Alice" 1 0 0) (by decide) (by decide)⟩

/-- C3: when a processed lethal hit raises the shooter's kill count to the
threshold, the round is marked inactive, the emitted events end with a
single `gameWon` naming the shooter and the new kill count, the only
scheduled timer is the round reset after the 6000 ms display window (in
particular no respawn is scheduled for the final victim), and every further
hit event on the resulting state is ignored without changing any state. -/
theorem win_sequence_once (s : ServerState) (sid vid : String) (dmg : ℤ)
    (v sh : Player)
    (hgb : s.gameInProgress = true)
    (hv : lookupP s.players vid = some v)
    (hs : lookupP s.players sid = some sh)
    (halive : 0 < v.hp)
    (hlethal : v.hp - dmg ≤ 0)
    (hwin : KILLS_TO_WIN ≤ sh.kills + 1) :
    (handleHit s sid vid dmg).1.gameInProgress = false ∧
    (handleHit s sid vid dmg).2.2 = [STimer.roundReset WIN_DISPLAY_MS] ∧
    (∃ board, (handleHit s sid vid dmg).2.1
      = [SEv.playerDamaged vid (v.hp - dmg) sid,
         SEv.playerDied vid sid sh.name v.name,
         SEv.scoreboardUpdate board,
         SEv.gameWon sid sh.name (sh.kills + 1)]) ∧
    (∀ sid2 vid2 dmg2, handleHit (handleHit s sid vid dmg).1 sid2 vid2 dmg2
      = ((handleHit s sid vid dmg).1, [], [])) := by
  have hmain : (handleHit s sid vid dmg).1.gameInProgress = false ∧
      (handleHit s sid vid dmg).2.2 = [STimer.roundReset WIN_DISPLAY_MS] ∧
      (∃ board, (handleHit s sid vid dmg).2.1
        = [SEv.playerDamaged vid (v.hp - dmg) sid,
           SEv.playerDied vid sid sh.name v.name,
           SEv.scoreboardUpdate board,
           SEv.gameWon sid sh.name (sh.kills + 1)]) := by
    by_cases hsv : sid = vid
    · subst hsv
      have heq : sh = v := by rw [hv] at hs; exact (Option.some.inj hs).symm
      subst heq
      rw [handleHit_lethal_self s sid dmg sh hgb hv halive hlethal]
      refine ⟨by simp [hwin], by simp [hwin],
        ⟨buildScoreboard (updateP s.players sid
          { sh with hp := sh.hp - dmg, kills := sh.kills + 1, deaths := sh.deaths + 1 }), ?_⟩⟩
      simp [hwin]
    · rw [handleHit_lethal_ne s sid vid dmg v sh hgb hv hs hsv halive hlethal]
      refine ⟨by simp [hwin], by simp [hwin],
        ⟨buildScoreboard (updateP (updateP s.players sid
            { sh with kills := sh.kills + 1 }) vid
          { v with hp := v.hp - dmg, deaths := v.deaths + 1 }), ?_⟩⟩
      simp [hwin]
  exact ⟨hmain.1, hmain.2.1, hmain.2.2,
    fun sid2 vid2 dmg2 => handleHit_inactive _ sid2 vid2 dmg2 hmain.1⟩

/-- C3, witness: Bob at 19 kills lethally hits Alice; the win sequence runs
and a further hit from Alice on Bob is dropped. -/
theorem win_sequence_once_witness :
    demoWinState.gameInProgress = true ∧
    lookupP demoWinState.players "A" = some (mkPlayer "Alice" 1 0 0) ∧
    lookupP demoWinState.players "B" = some (mkPlayer "Bob" 3 19 0) ∧
    0 < (mkPlayer "Alice" 1 0 0).hp ∧
    (mkPlayer "Alice" 1 0 0).hp - 3 ≤ 0 ∧
    KILLS_TO_WIN ≤ (mkPlayer "Bob" 3 19 0).kills + 1 ∧
    ((handleHit demoWinState "B" "A" 3).1.gameInProgress = false ∧
     (handleHit demoWinState "B" "A" 3).2.2
       = [STimer.roundReset WIN_DISPLAY_MS] ∧
     (∃ board, (handleHit demoWinState "B" "A" 3).2.1
       = [SEv.playerDamaged "A" ((mkPlayer "Alice" 1 0 0).hp - 3) "B",
          SEv.playerDied "A" "B" (mkPlayer "Bob" 3 19 0).name
            (mkPlayer "Alice" 1 0 0).name,
          SEv.scoreboardUpdate board,
          SEv.gameWon "B" (mkPlayer "Bob" 3 19 0).name
            ((mkPlayer "Bob" 3 19 0).kills + 1)]) ∧
     (∀ sid2 vid2 dmg2, handleHit (handleHit demoWinState "B" "A" 3).1
        sid2 vid2 dmg2 = ((handleHit demoWinState "B" "A" 3).1, [], []))) :=
  ⟨rfl, by decide, by decide, by decide, by decide, by decide,
   win_sequence_once demoWinState "B" "A" 3 (mkPlayer "Alice" 1 0 0)
     (mkPlayer "Bob" 3 19 0) rfl (by decide) (by decide) (by decide)
     (by decide) (by decide)⟩

/-- C6: every operation that references a connection id with no live
session is a silent no-op that leaves the server state unchanged and emits
nothing: movement updates and shots from such a sender are dropped, hit
events naming such an id as victim or as shooter are dropped, and a respawn
timer firing for such an id does not resurrect a session. -/
theorem no_session_silent_noop (s : ServerState) (cid : String)
    (habs : lookupP s.players cid = none) :
    (∀ m, handleUpdateMovement s cid m = (s, [])) ∧
    (∀ ox oy oz tx ty tz, handleShoot s cid ox oy oz tx ty tz = (s, [])) ∧
    (∀ sid dmg, handleHit s sid cid dmg = (s, [], [])) ∧
    (∀ vid dmg, handleHit s cid vid dmg = (s, [], [])) ∧
    (∀ r1 r2, fireRespawn r1 r2 s cid = (s, [])) :=
  ⟨fun m => by simp [handleUpdateMovement, habs],
   fun ox oy oz tx ty tz => by simp [handleShoot, habs],
   fun sid dmg => handleHit_missing_victim s sid cid dmg habs,
   fun vid dmg => handleHit_missing_shooter s cid vid dmg habs,
   fun r1 r2 => by simp [fireRespawn, habs]⟩

/-- C6, witness: the id "Z" has no session in the two-player state; all
five operations are no-ops there. -/
theorem no_session_silent_noop_witness :
    lookupP demoState.players "Z" = none ∧
    handleUpdateMovement demoState "Z" demoMove = (demoState, []) ∧
    handleShoot demoState "Z" 0 0 0 1 1 1 = (demoState, []) ∧
    handleHit demoState "B" "Z" 3 = (demoState, [], []) ∧
    handleHit demoState "Z" "A" 3 = (demoState, [], []) ∧
    fireRespawn 0 1 demoState "Z" = (demoState, []) :=
  ⟨by decide,
   (no_session_silent_noop demoState "Z" (by decide)).1 demoMove,
   (no_session_silent_noop demoState "Z" (by decide)).2.1 0 0 0 1 1 1,
   (no_session_silent_noop demoState "Z" (by decide)).2.2.1 "B" 3,
   (no_session_silent_noop demoState "Z" (by decide)).2.2.2.1 "A" 3,
   (no_session_silent_noop demoState "Z" (by decide)).2.2.2.2 0 1⟩

/-- C7: a movement update from a connection with a live session overwrites
the session's position and body orientation with the message's values
unconditionally — for arbitrary message values, with every non-transform
field untouched — and relays the full transform, including the separate
visual mesh orientation, verbatim to the other clients as `playerMoved`. -/
theorem movement_overwrites_and_relays (s : ServerState) (sid : String)
    (m : MoveMsg) (p : Player) (a b c d : ℚ)
    (hp : lookupP s.players sid = some p)
    (ha : m.meshQx = some a) (hb : m.meshQy = some b)
    (hc : m.meshQz = some c) (hd : m.meshQw = some d) :
    ∃ p2, lookupP (handleUpdateMovement s sid m).1.players sid = some p2 ∧
      p2.x = m.x ∧ p2.y = m.y ∧ p2.z = m.z ∧
      p2.qx = m.qx ∧ p2.qy = m.qy ∧ p2.qz = m.qz ∧ p2.qw = m.qw ∧
      p2.name = p.name ∧ p2.hp = p.hp ∧ p2.kills = p.kills ∧
      p2.deaths = p.deaths ∧ p2.hatType = p.hatType ∧
      p2.hatColor = p.hatColor ∧ p2.furColor = p.furColor ∧
      p2.coatColor = p.coatColor ∧
      (handleUpdateMovement s sid m).2
        = [SEv.playerMoved sid m.x m.y m.z m.qx m.qy m.qz m.qw a b c d] := by
  have hps : (lookupP s.players sid).isSome := by rw [hp]; rfl
  refine ⟨{ p with
      x := m.x, y := m.y, z := m.z,
      qx := m.qx, qy := m.qy, qz := m.qz, qw := m.qw }, ?_,
    rfl, rfl, rfl, rfl, rfl, rfl, rfl, rfl, rfl, rfl, rfl, rfl, rfl, rfl,
    rfl, ?_⟩
  · simp [handleUpdateMovement, hp, lookupP_updateP_self _ _ _ hps]
  · simp [handleUpdateMovement, hp, ha, hb, hc, hd]

/-- C7, witness at a concrete state and fully populated message. -/
theorem movement_overwrites_and_relays_witness :
    lookupP demoState.players "A" = some (mkPlayer "Alice" 1 0 0) ∧
    demoMove.meshQx = some 1 ∧ demoMove.meshQy = some 0 ∧
    demoMove.meshQz = some 0 ∧ demoMove.meshQw = some 1 ∧
    (∃ p2, lookupP (handleUpdateMovement demoState "A" demoMove).1.players "A"
        = some p2 ∧
      p2.x = demoMove.x ∧ p2.y = demoMove.y ∧ p2.z = demoMove.z ∧
      p2.qx = demoMove.qx ∧ p2.qy = demoMove.qy ∧ p2.qz = demoMove.qz ∧
      p2.qw = demoMove.qw ∧
      p2.name = (mkPlayer "Alice" 1 0 0).name ∧
      p2.hp = (mkPlayer "Alice" 1 0 0).hp ∧
      p2.kills = (mkPlayer "Alice" 1 0 0).kills ∧
      p2.deaths = (mkPlayer "Alice" 1 0 0).deaths ∧
      p2.hatType = (mkPlayer "Alice" 1 0 0).hatType ∧
      p2.hatColor = (mkPlayer "Alice" 1 0 0).hatColor ∧
      p2.furColor = (mkPlayer "Alice" 1 0 0).furColor ∧
      p2.coatColor = (mkPlayer "Alice" 1 0 0).coatColor ∧
      (handleUpdateMovement demoState "A" demoMove).2
        = [SEv.playerMoved "A" demoMove.x demoMove.y demoMove.z demoMove.qx
            demoMove.qy demoMove.qz demoMove.qw 1 0 0 1]) :=
  ⟨by decide, by decide, by decide, by decide, by decide,
   movement_overwrites_and_relays demoState "A" demoMove
     (mkPlayer "Alice" 1 0 0) 1 0 0 1
     (by decide) (by decide) (by decide) (by decide) (by decide)⟩

/-- The reset loop leaves identity and appearance of every entry untouched
while zeroing combat fields, entrywise along the roster. -/
theorem resetLoop_keeps : ∀ (rnd : ℕ → ℚ × ℚ) (j : ℕ) (ps : Players),
    List.Forall₂ resetKeeps ps (resetLoop rnd j ps).1
  | _, _, [] => List.Forall₂.nil
  | rnd, j, (id, p) :: rest => by
      simp only [resetLoop]
      exact List.Forall₂.cons
        ⟨rfl, rfl, rfl, rfl, rfl, rfl, rfl, rfl, rfl, rfl⟩
        (resetLoop_keeps rnd (j + 1) rest)

/-- Entry `i` of the reset loop's output takes its spawn point from draw
pair `j + i`. -/
theorem resetLoop_spawn : ∀ (rnd : ℕ → ℚ × ℚ) (j : ℕ) (ps : Players) (i : ℕ),
    (((resetLoop rnd j ps).1.get? i).map fun e => (e.2.x, e.2.z))
      = ((ps.get? i).map fun _ =>
          (((rnd (j + i)).1 - 1/2) * 100, ((rnd (j + i)).2 - 1/2) * 100))
  | rnd, j, [], i => by simp [resetLoop]
  | rnd, j, (id, p) :: rest, 0 => by simp [resetLoop]
  | rnd, j, (id, p) :: rest, i + 1 => by
      simp only [resetLoop, List.get?_cons_succ]
      have h := resetLoop_spawn rnd (j + 1) rest i
      rw [show j + 1 + i = j + (i + 1) from by omega] at h
      exact h

/-- C5: `resetGame`, for any roster (empty, one, many), reactivates the
round and resets exactly the combat fields of every session — kills and
deaths to 0, hit points to MAX_HP, and a fresh spawn (x from the session's
random draw, y = 2, z likewise) — while identity, name and the four
appearance fields are unchanged entry by entry. -/
theorem resetGame_resets_combat_only (rnd : ℕ → ℚ × ℚ) (s : ServerState) :
    (resetGame rnd s).1.gameInProgress = true ∧
    List.Forall₂ resetKeeps s.players (resetGame rnd s).1.players ∧
    (∀ i, (((resetGame rnd s).1.players.get? i).map fun e => (e.2.x, e.2.z))
      = ((s.players.get? i).map fun _ =>
          (((rnd i).1 - 1/2) * 100, ((rnd i).2 - 1/2) * 100))) :=
  ⟨rfl, resetLoop_keeps rnd 0 s.players,
   fun i => by simpa using resetLoop_spawn rnd 0 s.players i⟩

/-- C8, counterexample: joining with the whitespace-only name `" "` keeps
that name verbatim — JS `name || 'Anonymous Rat'` replaces only falsy names
(absent or empty string); it does not trim, so a whitespace-only name is
not defaulted. -/
theorem join_whitespace_name_kept_cex :
    (" ".toList.all Char.isWhitespace) = true ∧ " " ≠ "" ∧
    (lookupP (handleJoin 0 0 ⟨[], true⟩ "S"
        ⟨some " ", none, none, none, none⟩).1.players "S").map Player.name
      = some " " ∧
    " " ≠ "Anonymous Rat" := by
  decide

/-- C8, amended: `join` always succeeds for any input and creates a session
with full health (MAX_HP = 3), zero kills and deaths, spawn height y = 2 and
x, z within the half-extent of 50 units of the origin; the display name is
replaced by the default exactly when the supplied name is absent or the
empty string — any other name, including whitespace-only ones, is kept
verbatim. -/
theorem join_always_succeeds (r1 r2 : ℚ) (s : ServerState) (sid : String)
    (m : JoinMsg)
    (h1 : 0 ≤ r1) (h2 : r1 < 1) (h3 : 0 ≤ r2) (h4 : r2 < 1) :
    ∃ p, lookupP (handleJoin r1 r2 s sid m).1.players sid = some p ∧
      p.hp = MAX_HP ∧ p.kills = 0 ∧ p.deaths = 0 ∧
      p.y = 2 ∧ |p.x| ≤ 50 ∧ |p.z| ≤ 50 ∧
      ((m.name = none ∨ m.name = some "") → p.name = "Anonymous Rat") ∧
      (∀ str, m.name = some str → str ≠ "" → p.name = str) := by
  refine ⟨_, lookupP_insertP_self s.players sid _, rfl, rfl, rfl, rfl, ?_, ?_, ?_, ?_⟩
  · show |(r1 - 1/2) * 100| ≤ 50
    rw [abs_le]
    constructor <;> nlinarith
  · show |(r2 - 1/2) * 100| ≤ 50
    rw [abs_le]
    constructor <;> nlinarith
  · rintro (hn | hn) <;> simp [jsStringOr, hn]
  · intro str hn hne
    simp [jsStringOr, hn, hne]

/-- C8, amended, witness: joining an empty server with an absent name at
the central spawn draws. -/
theorem join_always_succeeds_witness :
    (0 : ℚ) ≤ 1/2 ∧ (1/2 : ℚ) < 1 ∧ (0 : ℚ) ≤ 1/4 ∧ (1/4 : ℚ) < 1 ∧
    (∃ p, lookupP (handleJoin (1/2) (1/4) ⟨[], true⟩ "S"
        ⟨none, none, none, none, none⟩).1.players "S" = some p ∧
      p.hp = MAX_HP ∧ p.kills = 0 ∧ p.deaths = 0 ∧
      p.y = 2 ∧ |p.x| ≤ 50 ∧ |p.z| ≤ 50 ∧
      (((⟨none, none, none, none, none⟩ : JoinMsg).name = none ∨
        (⟨none, none, none, none, none⟩ : JoinMsg).name = some "") →
          p.name = "Anonymous Rat") ∧
      (∀ str, (⟨none, none, none, none, none⟩ : JoinMsg).name = some str →
        str ≠ "" → p.name = str)) :=
  ⟨by norm_num, by norm_num, by norm_num, by norm_num,
   join_always_succeeds (1/2) (1/4) ⟨[], true⟩ "S"
     ⟨none, none, none, none, none⟩
     (by norm_num) (by norm_num) (by norm_num) (by norm_num)⟩

/-- `playerMoved` messages only ever write the interpolation target (and
the receive timestamp); the rendered transform and the dead flag are
untouched by any batch of them. -/
theorem applyMoves_keeps_rendered : ∀ (moves : List (ℚ × MovedMsg))
    (r : RemoteRat),
    (applyMoves moves r).renderedPos = r.renderedPos ∧
    (applyMoves moves r).renderedQuat = r.renderedQuat ∧
    (applyMoves moves r).dead = r.dead
  | [], _ => ⟨rfl, rfl, rfl⟩
  | (now, d) :: rest, r => applyMoves_keeps_rendered rest (onPlayerMoved now d r)

/-- A batch of `playerMoved` messages amounts to one overwrite of the
interpolation target and the receive timestamp. -/
theorem applyMoves_shape : ∀ (moves : List (ℚ × MovedMsg)) (r : RemoteRat),
    ∃ tp tq lu, applyMoves moves r
      = { r with targetPos := tp, targetMeshQuat := tq, lastUpdate := lu }
  | [], r => ⟨r.targetPos, r.targetMeshQuat, r.lastUpdate, rfl⟩
  | (now, d) :: rest, r => by
      obtain ⟨tp, tq, lu, h⟩ := applyMoves_shape rest (onPlayerMoved now d r)
      exact ⟨tp, tq, lu, h⟩

/-- The entity's per-frame update neither reads nor writes the
interpolation target or the receive timestamp: it commutes with
overwriting them. -/
theorem entityUpdate_targets_comm (slerp : Quat → Quat → ℚ → Quat) (dt : ℚ)
    (r : RemoteRat) (tp : Vec3) (tq : Quat) (lu : ℚ) :
    entityUpdate slerp dt
      { r with targetPos := tp, targetMeshQuat := tq, lastUpdate := lu }
      = { entityUpdate slerp dt r with
          targetPos := tp, targetMeshQuat := tq, lastUpdate := lu } := by
  obtain ⟨rp, rq, bp, bq, t1, t2, l1, dead, hp, dtm, dph, dpos, dtq, ip, rs⟩ := r
  cases dead <;> cases dph <;> cases dpos <;> cases dtq <;>
    simp only [entityUpdate, updateDeathRagdoll] <;>
    split_ifs <;> rfl

/-- The entity's per-frame update never changes the dead flag. -/
theorem entityUpdate_keeps_dead (slerp : Quat → Quat → ℚ → Quat) (dt : ℚ)
    (r : RemoteRat) : (entityUpdate slerp dt r).dead = r.dead := by
  obtain ⟨rp, rq, bp, bq, t1, t2, l1, dead, hp, dtm, dph, dpos, dtq, ip, rs⟩ := r
  cases dead <;> cases dph <;> cases dpos <;> cases dtq <;>
    simp only [entityUpdate, updateDeathRagdoll] <;>
    split_ifs <;> rfl

/-- C9, counterexample: a dead remote avatar in the launch phase of its
death ragdoll, with the impulsed physics body away from the mesh.  One
frame step — with no `playerMoved` message at all — changes both the
rendered position (it is copied from the flying physics body, per
`RatEntity.updateDeathRagdoll`) and the rendered orientation, so the
per-frame step does not leave the rendered transform of a dead avatar
unchanged. -/
theorem dead_rendered_transform_changes_cex :
    demoRagdollRat.dead = true ∧
    (updateRemoteRat (fun a _ _ => a) 1 demoRagdollRat).renderedPos
      ≠ demoRagdollRat.renderedPos ∧
    (updateRemoteRat (fun a _ _ => a) 1 demoRagdollRat).renderedQuat
      ≠ demoRagdollRat.renderedQuat ∧
    (updateRemoteRat (fun a _ _ => a) 1 demoRagdollRat).renderedPos
      = demoRagdollRat.bodyPos := by
  have hcond : DEATH_PHASE_LAUNCH ≤ (1 : ℚ) := by
    norm_num [DEATH_PHASE_LAUNCH]
  refine ⟨rfl, ?_, ?_, ?_⟩ <;>
    simp [updateRemoteRat, entityUpdate, updateDeathRagdoll, demoRagdollRat,
      hcond, Vec3.mk.injEq, Quat.mk.injEq]

/-- C9, amended: while a remote avatar's dead flag is set, the per-frame
step applies no interpolation toward the network targets: any batch of
`playerMoved` messages received for that id only updates the interpolation
target and leaves the rendered transform produced by the frame step exactly
what it would have been with no messages at all (it is driven solely by the
death-ragdoll presentation state); interpolation resumes only after the
matching `playerRespawn`, which snaps the rendered transform to the respawn
transform and resets the interpolation target to match. -/
theorem dead_avatar_moves_only_retarget (r : RemoteRat)
    (moves : List (ℚ × MovedMsg)) (slerp : Quat → Quat → ℚ → Quat)
    (dt x y z : ℚ) (hp : ℤ)
    (hdead : r.dead = true) :
    (applyMoves moves r).renderedPos = r.renderedPos ∧
    (applyMoves moves r).renderedQuat = r.renderedQuat ∧
    (updateRemoteRat slerp dt (applyMoves moves r)).renderedPos
      = (updateRemoteRat slerp dt r).renderedPos ∧
    (updateRemoteRat slerp dt (applyMoves moves r)).renderedQuat
      = (updateRemoteRat slerp dt r).renderedQuat ∧
    (updateRemoteRat slerp dt (applyMoves moves r)).dead = true ∧
    ((respawnRemoteRat (updateRemoteRat slerp dt (applyMoves moves r))
        x y z hp).dead = false ∧
     (respawnRemoteRat (updateRemoteRat slerp dt (applyMoves moves r))
        x y z hp).renderedPos = ⟨x, y, z⟩ ∧
     (respawnRemoteRat (updateRemoteRat slerp dt (applyMoves moves r))
        x y z hp).renderedQuat = ⟨0, 0, 0, 1⟩ ∧
     (respawnRemoteRat (updateRemoteRat slerp dt (applyMoves moves r))
        x y z hp).targetPos = ⟨x, y, z⟩ ∧
     (respawnRemoteRat (updateRemoteRat slerp dt (applyMoves moves r))
        x y z hp).targetMeshQuat = ⟨0, 0, 0, 1⟩) := by
  obtain ⟨_, _, hd⟩ := applyMoves_keeps_rendered moves r
  have hd' : (applyMoves moves r).dead = true := by rw [hd]; exact hdead
  obtain ⟨tp, tq, lu, hshape⟩ := applyMoves_shape moves r
  have h1 : updateRemoteRat slerp dt (applyMoves moves r)
      = entityUpdate slerp dt (applyMoves moves r) := by
    simp [updateRemoteRat, hd']
  have h2 : updateRemoteRat slerp dt r = entityUpdate slerp dt r := by
    simp [updateRemoteRat, hdead]
  rw [h1, h2, hshape, entityUpdate_targets_comm]
  refine ⟨rfl, rfl, rfl, rfl, ?_, rfl, rfl, rfl, rfl, rfl⟩
  show (entityUpdate slerp dt r).dead = true
  rw [entityUpdate_keeps_dead]
  exact hdead

/-- C9, amended, witness: the launch-phase ragdoll rat receiving one
movement message — the rendered transform after the frame step matches the
message-free step, and respawn snaps everything. -/
theorem dead_avatar_moves_only_retarget_witness :
    demoRagdollRat.dead = true ∧
    ((applyMoves [(0, demoMoved)] demoRagdollRat).renderedPos
      = demoRagdollRat.renderedPos ∧
    (applyMoves [(0, demoMoved)] demoRagdollRat).renderedQuat
      = demoRagdollRat.renderedQuat ∧
    (updateRemoteRat (fun a _ _ => a) 1
        (applyMoves [(0, demoMoved)] demoRagdollRat)).renderedPos
      = (updateRemoteRat (fun a _ _ => a) 1 demoRagdollRat).renderedPos ∧
    (updateRemoteRat (fun a _ _ => a) 1
        (applyMoves [(0, demoMoved)] demoRagdollRat)).renderedQuat
      = (updateRemoteRat (fun a _ _ => a) 1 demoRagdollRat).renderedQuat ∧
    (updateRemoteRat (fun a _ _ => a) 1
        (applyMoves [(0, demoMoved)] demoRagdollRat)).dead = true ∧
    ((respawnRemoteRat (updateRemoteRat (fun a _ _ => a) 1
        (applyMoves [(0, demoMoved)] demoRagdollRat)) 5 2 5 3).dead = false ∧
     (respawnRemoteRat (updateRemoteRat (fun a _ _ => a) 1
        (applyMoves [(0, demoMoved)] demoRagdollRat)) 5 2 5 3).renderedPos
       = ⟨5, 2, 5⟩ ∧
     (respawnRemoteRat (updateRemoteRat (fun a _ _ => a) 1
        (applyMoves [(0, demoMoved)] demoRagdollRat)) 5 2 5 3).renderedQuat
       = ⟨0, 0, 0, 1⟩ ∧
     (respawnRemoteRat (updateRemoteRat (fun a _ _ => a) 1
        (applyMoves [(0, demoMoved)] demoRagdollRat)) 5 2 5 3).targetPos
       = ⟨5, 2, 5⟩ ∧
     (respawnRemoteRat (updateRemoteRat (fun a _ _ => a) 1
        (applyMoves [(0, demoMoved)] demoRagdollRat)) 5 2 5 3).targetMeshQuat
       = ⟨0, 0, 0, 1⟩)) :=
  ⟨rfl, dead_avatar_moves_only_retarget demoRagdollRat [(0, demoMoved)]
    (fun a _ _ => a) 1 5 2 5 3 rfl⟩

/-- C10: a hit whose victim id equals the sender's own id is processed like
any other hit while the round is active and the player alive — the player's
own hit points drop by the reported damage, and on a lethal self-hit the
same player's kill count and death count both increase by 1, the self-kill
counting toward the 20-kill threshold (reaching it emits `gameWon` for this
player and deactivates the round). -/
theorem self_hit_processed_normally (s : ServerState) (sid : String)
    (dmg : ℤ) (v : Player)
    (hgb : s.gameInProgress = true)
    (hv : lookupP s.players sid = some v)
    (halive : 0 < v.hp) :
    ∃ v2, lookupP (handleHit s sid sid dmg).1.players sid = some v2 ∧
      v2.hp = v.hp - dmg ∧
      (0 < v.hp - dmg → v2.kills = v.kills ∧ v2.deaths = v.deaths) ∧
      (v.hp - dmg ≤ 0 →
        v2.kills = v.kills + 1 ∧ v2.deaths = v.deaths + 1 ∧
        (KILLS_TO_WIN ≤ v.kills + 1 →
          SEv.gameWon sid v.name (v.kills + 1) ∈ (handleHit s sid sid dmg).2.1 ∧
          (handleHit s sid sid dmg).1.gameInProgress = false)) := by
  have hvs : (lookupP s.players sid).isSome := by rw [hv]; rfl
  by_cases hk : v.hp - dmg ≤ 0
  · rw [handleHit_lethal_self s sid dmg v hgb hv halive hk]
    by_cases hw : KILLS_TO_WIN ≤ v.kills + 1
    · exact ⟨{ v with hp := v.hp - dmg, kills := v.kills + 1, deaths := v.deaths + 1 },
        by simp [hw, lookupP_updateP_self _ _ _ hvs], rfl,
        fun hc => absurd hk (not_le.mpr hc),
        fun _ => ⟨rfl, rfl, fun _ => ⟨by simp [hw], by simp [hw]⟩⟩⟩
    · exact ⟨{ v with hp := v.hp - dmg, kills := v.kills + 1, deaths := v.deaths + 1 },
        by simp [hw, lookupP_updateP_self _ _ _ hvs], rfl,
        fun hc => absurd hk (not_le.mpr hc),
        fun _ => ⟨rfl, rfl, fun hwc => absurd hwc hw⟩⟩
  · rw [handleHit_nonlethal s sid sid dmg v v hgb hv hv halive (lt_of_not_le hk)]
    exact ⟨{ v with hp := v.hp - dmg }, lookupP_updateP_self _ _ _ hvs, rfl,
      fun _ => ⟨rfl, rfl⟩, fun hc => absurd hc hk⟩

/-- C10, witness: Alice (1 hp, 0 kills) lethally hits herself; her own
record ends with hp −2, kills 1, deaths 1. -/
theorem self_hit_processed_normally_witness :
    demoState.gameInProgress = true ∧
    lookupP demoState.players "A" = some (mkPlayer "Alice" 1 0 0) ∧
    0 < (mkPlayer "Alice" 1 0 0).hp ∧
    (∃ v2, lookupP (handleHit demoState "A" "A" 3).1.players "A" = some v2 ∧
      v2.hp = (mkPlayer "Alice" 1 0 0).hp - 3 ∧
      (0 < (mkPlayer "Alice" 1 0 0).hp - 3 →
        v2.kills = (mkPlayer "Alice" 1 0 0).kills ∧
        v2.deaths = (mkPlayer "Alice" 1 0 0).deaths) ∧
      ((mkPlayer "Alice" 1 0 0).hp - 3 ≤ 0 →
        v2.kills = (mkPlayer "Alice" 1 0 0).kills + 1 ∧
        v2.deaths = (mkPlayer "Alice" 1 0 0).deaths + 1 ∧
        (KILLS_TO_WIN ≤ (mkPlayer "Alice" 1 0 0).kills + 1 →
          SEv.gameWon "A" (mkPlayer "Alice" 1 0 0).name
            ((mkPlayer "Alice" 1 0 0).kills + 1)
            ∈ (handleHit demoState "A" "A" 3).2.1 ∧
          (handleHit demoState "A" "A" 3).1.gameInProgress = false))) :=
  ⟨rfl, by decide, by decide,
   self_hit_processed_normally demoState "A" 3 (mkPlayer "Alice" 1 0 0)
     rfl (by decide) (by decide)⟩

end RatDetective
